import Mathlib

/-!
Verification of the feature-collection core of the `mobius-lib-turf`
repository (files `src/typescript/feature_coll.ts` and
`src/typescript/properties.ts`), shallowly embedded in Lean 4.

Modelling conventions:
* A GeoJSON property map is an association list `List (String × PropVal)`
  in insertion order, matching a plain JS object.  A `PropVal` is
  `Option Value`: `none` is the JS `undefined` sentinel (a key may be
  present in the object while holding `undefined`), `some v` a proper
  value (string, number or boolean).
* Numbers are modelled as `Int`; none of the verified operations inspects
  a number beyond JS `isNaN` coercion, which is modelled explicitly.
* TS functions that mutate their collection argument (`addFeature`,
  `delFeature`) return the updated collection; read-only loops are also
  given a state-threading translation (`...St`) in which each loop
  iteration passes the collection state through, mirroring that the
  source bodies contain no assignment to the collection.
* Fallible code returns `Except String`.
-/

namespace MobiusTurf

/-- A GeoJSON feature identifier: a string or a number
(`id?: string | number` in the TS typings). -/
inductive Ident where
  | str (s : String)
  | num (n : Int)
deriving DecidableEq, Repr

/-- A proper (non-`undefined`) property value: string, number or boolean.
Nested structures are not needed by any verified operation. -/
inductive Value where
  | str (s : String)
  | num (n : Int)
  | bool (b : Bool)
deriving DecidableEq, Repr

/-- A slot of a JS property map: `none` models the `undefined` sentinel
stored under a present key, `some v` a proper value. -/
abbrev PropVal := Option Value

/-- A JS property object: ordered association list of key/slot pairs. -/
abbrev Props := List (String × PropVal)

/-- A coordinate position `[x, y, (z)]`; components are numbers, modelled
as `Int` (no verified operation reads a coordinate). -/
abbrev Position := List Int

/-- A polygon ring: a sequence of positions. -/
abbrev Ring := List Position

/-- The GeoJSON geometry tagged union, as used by `feature_coll.ts`. -/
inductive Geometry where
  | point (coord : Position)
  | multiPoint (coords : List Position)
  | lineString (coords : List Position)
  | multiLineString (lines : List (List Position))
  | polygon (rings : List Ring)
  | multiPolygon (faces : List (List Ring))
deriving DecidableEq, Repr

/-- The `geometry.type` string tag the TS code compares against. -/
def Geometry.typeTag : Geometry → String
  | .point _ => "Point"
  | .multiPoint _ => "MultiPoint"
  | .lineString _ => "LineString"
  | .multiLineString _ => "MultiLineString"
  | .polygon _ => "Polygon"
  | .multiPolygon _ => "MultiPolygon"

/-- A GeoJSON feature: optional id, property map, one geometry. -/
structure Feature where
  id : Option Ident
  properties : Props
  geometry : Geometry
deriving DecidableEq, Repr

/-- A GeoJSON feature collection: an ordered sequence of features. -/
structure FeatureCollection where
  features : List Feature
deriving DecidableEq, Repr

/-! ### JS object primitives used by the source -/

/-- JS property read `obj[name]`: yields the `undefined` sentinel both
when the key is absent and when it is present holding `undefined`. -/
def jsIndex (props : Props) (name : String) : PropVal :=
  (props.find? (fun kv => kv.1 == name)).bind (fun kv => kv.2)

/-- JS `Object.prototype.hasOwnProperty`: key membership, regardless of
the stored slot. -/
def jsHasOwn (props : Props) (name : String) : Bool :=
  props.any (fun kv => kv.1 == name)

/-- JS assignment `obj[name] = v`: overwrites in place when the key is
present (keeping its position), otherwise appends the entry. -/
def jsAssign (props : Props) (name : String) (v : PropVal) : Props :=
  match props with
  | [] => [(name, v)]
  | kv :: rest =>
      if kv.1 == name then (name, v) :: rest
      else kv :: jsAssign rest name v

/-- JS `Object.keys(obj)`: the keys in insertion order. -/
def jsKeys (props : Props) : List String :=
  props.map (fun kv => kv.1)

/-! ### `properties.ts` -/

/-- `getProperties(feature)`: returns the feature's property map. -/
def getProperties (feature : Feature) : Props :=
  feature.properties

/-- `getPropertyNames(feature)`: the source evaluates
`feature.properties.keys()`.  A GeoJSON property map is a plain JS
object, which has no `keys` method, so the member access yields
`undefined` and the call throws a `TypeError` on every input; the
embedding returns that error. -/
def getPropertyNames (_feature : Feature) : Except String (List String) :=
  Except.error "TypeError: feature.properties.keys is not a function"

/-- `hasProperty(feature, name)`: `feature.properties.hasOwnProperty(name)`. -/
def hasProperty (feature : Feature) (name : String) : Bool :=
  jsHasOwn feature.properties name

/-- `getProperty(feature, name)`: reads `feature.properties[name]` and
throws when the result is the `undefined` sentinel, otherwise returns it. -/
def getProperty (feature : Feature) (name : String) : Except String Value :=
  match jsIndex feature.properties name with
  | none => Except.error ("Property " ++ name ++ " not found.")
  | some v => Except.ok v

/-- `setProperty(feature, name, value)`: `feature.properties[name] = value`;
the mutation is rendered as returning the updated feature. -/
def setProperty (feature : Feature) (name : String) (value : PropVal) : Feature :=
  { feature with properties := jsAssign feature.properties name value }

/-! ### `feature_coll.ts` -/

/-- `create()`: a new collection with an empty feature sequence. -/
def create : FeatureCollection :=
  { features := [] }

/-- `getPoints(featureColl)`: the features whose `geometry.type` is
`"Point"`, kept in collection order. -/
def getPoints (featureColl : FeatureCollection) : List Feature :=
  featureColl.features.filter (fun feature => feature.geometry.typeTag == "Point")

/-- `getLinestrings(featureColl)`: the features whose `geometry.type` is
`"LineString"`, kept in collection order. -/
def getLinestrings (featureColl : FeatureCollection) : List Feature :=
  featureColl.features.filter (fun feature => feature.geometry.typeTag == "LineString")

/-- `getPolygons(featureColl)`: the features whose `geometry.type` is
`"Polygon"`, kept in collection order. -/
def getPolygons (featureColl : FeatureCollection) : List Feature :=
  featureColl.features.filter (fun feature => feature.geometry.typeTag == "Polygon")

/-- The ring-count test of `getPolygonsWithHoles`: geometry is a polygon
and `geometry.coordinates.length > 1`. -/
def polygonRingTest (feature : Feature) : Bool :=
  match feature.geometry with
  | .polygon rings => rings.length > 1
  | _ => false

/-- `getPolygonsWithHoles(featureColl)`: polygon features whose ring list
has length `> 1`, kept in collection order. -/
def getPolygonsWithHoles (featureColl : FeatureCollection) : List Feature :=
  featureColl.features.filter polygonRingTest

/-- `getMultiPoints(featureColl)`. -/
def getMultiPoints (featureColl : FeatureCollection) : List Feature :=
  featureColl.features.filter (fun feature => feature.geometry.typeTag == "MultiPoint")

/-- `getMultiLineStrings(featureColl)`. -/
def getMultiLineStrings (featureColl : FeatureCollection) : List Feature :=
  featureColl.features.filter (fun feature => feature.geometry.typeTag == "MultiLineString")

/-- `getMultiPolygons(featureColl)`. -/
def getMultiPolygons (featureColl : FeatureCollection) : List Feature :=
  featureColl.features.filter (fun feature => feature.geometry.typeTag == "MultiPolygon")

/-- The `has_holes` loop of `getMultiPolygonsWithHoles`: some face of the
multipolygon has more than one ring. -/
def multiPolygonRingTest (feature : Feature) : Bool :=
  match feature.geometry with
  | .multiPolygon faces => faces.any (fun face => face.length > 1)
  | _ => false

/-- `getMultiPolygonsWithHoles(featureColl)`. -/
def getMultiPolygonsWithHoles (featureColl : FeatureCollection) : List Feature :=
  featureColl.features.filter multiPolygonRingTest

/-! `getPropertyTypes` -/

/-- JS `isNaN(x)` on a property slot: `Number(x)` is `NaN` exactly for
`undefined`, and for a string that does not read as a number (booleans
coerce to `0`/`1`, numbers to themselves).  The string case models the
decimal fragment of JS numeric coercion: optional sign, digits with at
most one decimal point; the empty string coerces to `0`. -/
def jsIsNaN (v : PropVal) : Bool :=
  match v with
  | none => true
  | some (.num _) => false
  | some (.bool _) => false
  | some (.str s) => !(strNumeric s)
where
  /-- Whether `Number(s)` succeeds on the modelled decimal fragment. -/
  strNumeric (s : String) : Bool :=
    let chars := s.toList
    let chars := match chars with
      | '+' :: rest => rest
      | '-' :: rest => rest
      | cs => cs
    (chars.all (fun c => c.isDigit || c == '.')) &&
      (chars.filter (fun c => c == '.')).length ≤ 1 &&
      (s.toList.any Char.isDigit || s.toList.isEmpty)

/-- The classification `getPropertyTypes` records for a first-seen slot:
`"string"` when `isNaN` holds of it, else `"number"`. -/
def classifySlot (v : PropVal) : String :=
  if jsIsNaN v then "string" else "number"

/-- The inner key loop of `getPropertyTypes`: for each key of the current
feature's map, in order, record `classifySlot (propos[key])` unless the
key is already recorded. -/
def addPropTypes (propos : Props) (acc : List (String × String)) :
    List String → List (String × String)
  | [] => acc
  | key :: keys =>
      if acc.any (fun e => e.1 == key) then addPropTypes propos acc keys
      else addPropTypes propos (acc ++ [(key, classifySlot (jsIndex propos key))]) keys

/-- `getPropertyTypes(featureColl)`: scans every feature's property map
in order, recording each key's classification on first sight.  The TS
`Map` preserves insertion order; it is modelled as an ordered
association list. -/
def getPropertyTypes (featureColl : FeatureCollection) : List (String × String) :=
  featureColl.features.foldl
    (fun acc feature => addPropTypes feature.properties acc (jsKeys feature.properties))
    []

/-! `addFeature` / `delFeature` -/

/-- `addFeature(featureColl, feature)`: appends the feature; the mutation
is rendered as returning the updated collection. -/
def addFeature (featureColl : FeatureCollection) (feature : Feature) : FeatureCollection :=
  { featureColl with features := featureColl.features ++ [feature] }

/-- The scan of `delFeature`: walk the features in order; at the first
one whose `id` equals the argument's `id`, splice it out and stop. -/
def delFeatureScan (fid : Option Ident) : List Feature → Option (List Feature)
  | [] => none
  | feature2 :: rest =>
      if fid == feature2.id then some rest
      else (delFeatureScan fid rest).map (fun l => feature2 :: l)

/-- `delFeature(featureColl, feature)`: removes the first feature whose
`id` equals `feature.id` (JS `===`; `undefined === undefined` is true)
and returns `true`, or returns `false` leaving the collection as it was.
The mutation is rendered as returning the boolean with the updated
collection. -/
def delFeature (featureColl : FeatureCollection) (feature : Feature) :
    Bool × FeatureCollection :=
  match delFeatureScan feature.id featureColl.features with
  | some rest => (true, { featureColl with features := rest })
  | none => (false, featureColl)

/-! ### State-threading translations of the read-only scans

Each classifier's `for`-loop is also rendered with the collection state
passed explicitly through every iteration: the TS loop bodies read
`featureColl.features` and push onto a local array, and contain no store
to the collection, so each iteration maps the state to itself. -/

/-- One classifier loop with explicit collection state: the iteration
extends only the local accumulator. -/
def filterLoopSt (p : Feature → Bool) :
    List Feature → List Feature → FeatureCollection → List Feature × FeatureCollection
  | [], acc, st => (acc, st)
  | feature :: rest, acc, st =>
      filterLoopSt p rest (if p feature then acc ++ [feature] else acc) st

/-- `getPoints` with explicit collection state. -/
def getPointsSt (c : FeatureCollection) : List Feature × FeatureCollection :=
  filterLoopSt (fun feature => feature.geometry.typeTag == "Point") c.features [] c

/-- `getLinestrings` with explicit collection state. -/
def getLinestringsSt (c : FeatureCollection) : List Feature × FeatureCollection :=
  filterLoopSt (fun feature => feature.geometry.typeTag == "LineString") c.features [] c

/-- `getPolygons` with explicit collection state. -/
def getPolygonsSt (c : FeatureCollection) : List Feature × FeatureCollection :=
  filterLoopSt (fun feature => feature.geometry.typeTag == "Polygon") c.features [] c

/-- `getPolygonsWithHoles` with explicit collection state. -/
def getPolygonsWithHolesSt (c : FeatureCollection) : List Feature × FeatureCollection :=
  filterLoopSt polygonRingTest c.features [] c

/-- `getMultiPoints` with explicit collection state. -/
def getMultiPointsSt (c : FeatureCollection) : List Feature × FeatureCollection :=
  filterLoopSt (fun feature => feature.geometry.typeTag == "MultiPoint") c.features [] c

/-- `getMultiLineStrings` with explicit collection state. -/
def getMultiLineStringsSt (c : FeatureCollection) : List Feature × FeatureCollection :=
  filterLoopSt (fun feature => feature.geometry.typeTag == "MultiLineString") c.features [] c

/-- `getMultiPolygons` with explicit collection state. -/
def getMultiPolygonsSt (c : FeatureCollection) : List Feature × FeatureCollection :=
  filterLoopSt (fun feature => feature.geometry.typeTag == "MultiPolygon") c.features [] c

/-- `getMultiPolygonsWithHoles` with explicit collection state. -/
def getMultiPolygonsWithHolesSt (c : FeatureCollection) : List Feature × FeatureCollection :=
  filterLoopSt multiPolygonRingTest c.features [] c

/-- The `getPropertyTypes` loop with explicit collection state. -/
def propTypesLoopSt :
    List Feature → List (String × String) → FeatureCollection →
      List (String × String) × FeatureCollection
  | [], acc, st => (acc, st)
  | feature :: rest, acc, st =>
      propTypesLoopSt rest (addPropTypes feature.properties acc (jsKeys feature.properties)) st

/-- `getPropertyTypes` with explicit collection state. -/
def getPropertyTypesSt (c : FeatureCollection) :
    List (String × String) × FeatureCollection :=
  propTypesLoopSt c.features [] c

/-! ### Spec-side auxiliary definitions -/

/-- Spec-side key lookup in a property map: `none` when the key is
absent, `some slot` when present with stored slot (`some none` is a key
holding the `undefined` sentinel). -/
def storedSlot (f : Feature) (n : String) : Option PropVal :=
  (f.properties.find? (fun kv => kv.1 == n)).map (fun kv => kv.2)

/-- Spec-side first-seen scan: the slot the first feature (in collection
order) whose property map contains key `k` stores under `k`; `none` when
no feature carries the key. -/
def firstSeenSlot : List Feature → String → Option PropVal
  | [], _ => none
  | feature :: rest, k =>
      if jsHasOwn feature.properties k then some (jsIndex feature.properties k)
      else firstSeenSlot rest k

/-- Spec-side lookup in the ordered result of `getPropertyTypes`. -/
def typeOf (tys : List (String × String)) (k : String) : Option String :=
  (tys.find? (fun e => e.1 == k)).map (fun e => e.2)

/-! ### Concrete features used by witnesses and counterexamples -/

/-- A feature whose key `"a"` is present but stores the `undefined`
sentinel. -/
def undefSlotFeature : Feature :=
  { id := none, properties := [("a", none)], geometry := .point [0, 0] }

/-- A point feature with numeric id 1. -/
def featA : Feature :=
  { id := some (.num 1), properties := [], geometry := .point [0, 0] }

/-- A point feature with numeric id 2. -/
def featB : Feature :=
  { id := some (.num 2), properties := [], geometry := .point [1, 1] }

/-- A point feature with numeric id 3. -/
def featC : Feature :=
  { id := some (.num 3), properties := [], geometry := .point [2, 2] }

/-- A feature sharing `featB`'s id but structurally different. -/
def featB' : Feature :=
  { id := some (.num 2), properties := [("x", some (.num 9))],
    geometry := .lineString [[7, 7]] }

/-- An id-less line feature. -/
def noIdLine : Feature :=
  { id := none, properties := [("tag", some (.str "line"))],
    geometry := .lineString [[3, 3], [4, 4]] }

/-- An id-less point feature, structurally unrelated to `noIdLine`. -/
def noIdPoint : Feature :=
  { id := none, properties := [], geometry := .point [9, 9] }

/-- A polygon with an interior ring (two rings). -/
def polyHole : Feature :=
  { id := none, properties := [],
    geometry := .polygon [[[0, 0], [4, 0], [4, 4], [0, 0]], [[1, 1], [2, 1], [2, 2], [1, 1]]] }

/-- A polygon with a single ring (no holes). -/
def polyNoHole : Feature :=
  { id := none, properties := [],
    geometry := .polygon [[[0, 0], [4, 0], [4, 4], [0, 0]]] }

/-- A two-feature collection holding `polyHole` and `polyNoHole`. -/
def polyColl : FeatureCollection :=
  { features := [polyNoHole, polyHole] }

/-- A mixed collection holding a point, a polygon and a line. -/
def mixColl : FeatureCollection :=
  { features := [featA, polyHole, noIdLine] }

/-! ## Helper lemmas -/

/-- After a JS assignment, reading the assigned key yields the assigned slot. -/
lemma jsIndex_jsAssign_self (props : Props) (name : String) (v : PropVal) :
    jsIndex (jsAssign props name v) name = v := by
  induction props with
  | nil => simp [jsAssign, jsIndex]
  | cons kv rest ih =>
      by_cases h : kv.1 = name
      · simp [jsAssign, jsIndex, h]
      · have hb : (kv.1 == name) = false := by simp [h]
        simp [jsAssign, jsIndex, List.find?_cons, hb] at ih ⊢
        exact ih

/-- After a JS assignment, the assigned key is an own property. -/
lemma jsHasOwn_jsAssign_self (props : Props) (name : String) (v : PropVal) :
    jsHasOwn (jsAssign props name v) name = true := by
  induction props with
  | nil => simp [jsAssign, jsHasOwn]
  | cons kv rest ih =>
      by_cases h : kv.1 = name
      · simp [jsAssign, jsHasOwn, h]
      · have hb : (kv.1 == name) = false := by simp [h]
        simp [jsAssign, jsHasOwn, hb] at ih ⊢
        exact ih

/-- The delete scan returns `none` exactly when no feature's id matches. -/
lemma delFeatureScan_eq_none (fid : Option Ident) (l : List Feature) :
    delFeatureScan fid l = none ↔ ∀ g ∈ l, g.id ≠ fid := by
  induction l with
  | nil => simp [delFeatureScan]
  | cons g rest ih =>
      by_cases h : fid = g.id
      · simp [delFeatureScan, h]
      · have hb : (fid == g.id) = false := by simp [h]
        simp [delFeatureScan, hb, Option.map_eq_none', ih, List.forall_mem_cons, Ne.symm h]

/-- The delete scan splices out the first feature whose id matches. -/
lemma delFeatureScan_first (fid : Option Ident) (l₁ : List Feature) (g : Feature)
    (l₂ : List Feature) (hg : g.id = fid) (hl₁ : ∀ h ∈ l₁, h.id ≠ fid) :
    delFeatureScan fid (l₁ ++ g :: l₂) = some (l₁ ++ l₂) := by
  induction l₁ with
  | nil => simp [delFeatureScan, hg]
  | cons h rest ih =>
      have hh : h.id ≠ fid := hl₁ h (by simp)
      have hne : fid ≠ h.id := fun e => hh e.symm
      have hb : (fid == h.id) = false := by simp [hne]
      have ihr := ih (fun x hx => hl₁ x (List.mem_cons_of_mem _ hx))
      simp [delFeatureScan, hb, ihr]

/-! ## Claims -/

/-- C5: after `setProperty(f, k, v)` with a proper value `v`,
`getProperty(f, k)` returns `v` and `hasProperty(f, k)` returns `true`. -/
theorem setProperty_roundtrip (f : Feature) (k : String) (v : Value) :
    getProperty (setProperty f k (some v)) k = Except.ok v ∧
    hasProperty (setProperty f k (some v)) k = true := by
  constructor
  · simp [getProperty, setProperty, jsIndex_jsAssign_self]
  · simp [hasProperty, setProperty, jsHasOwn_jsAssign_self]

/-- C2 counterexample: the key `"a"` is present in the feature's property
map (it is among the keys, and `hasProperty` agrees), yet the strict
`getProperty` raises, so the error is not raised exactly on absent keys. -/
theorem getProperty_raises_on_present_key :
    jsKeys undefSlotFeature.properties = ["a"] ∧
    hasProperty undefSlotFeature "a" = true ∧
    getProperty undefSlotFeature "a" = Except.error "Property a not found." :=
  ⟨rfl, rfl, rfl⟩

/-- C2 amended: the strict `getProperty(f, n)` raises the
property-not-found error exactly when `n` is absent from `f`'s property
map or the slot stored under `n` is the `undefined` sentinel; otherwise
it returns the stored value without error. -/
theorem getProperty_strict_spec (f : Feature) (n : String) :
    getProperty f n =
      match storedSlot f n with
      | none => Except.error ("Property " ++ n ++ " not found.")
      | some none => Except.error ("Property " ++ n ++ " not found.")
      | some (some v) => Except.ok v := by
  unfold getProperty jsIndex storedSlot
  cases h : f.properties.find? (fun kv => kv.1 == n) with
  | none => simp
  | some kv =>
      cases hv : kv.2 with
      | none => simp [hv]
      | some v => simp [hv]

/-- C7: `getPropertyNames` calls a `keys()` method on the plain property
object, which has none, so it throws a `TypeError` on every feature
instead of returning the ordered key list. -/
theorem getPropertyNames_always_throws (f : Feature) :
    getPropertyNames f =
      Except.error "TypeError: feature.properties.keys is not a function" :=
  rfl

/-- C10: when a key is present but stores the `undefined` sentinel,
`hasProperty` answers `true` while the strict `getProperty` raises,
because the latter tests the looked-up slot rather than key membership. -/
theorem hasProperty_getProperty_undef_mismatch (f : Feature) (n : String)
    (h : storedSlot f n = some none) :
    hasProperty f n = true ∧
    getProperty f n = Except.error ("Property " ++ n ++ " not found.") := by
  obtain ⟨kv, hfind, hslot⟩ : ∃ kv, f.properties.find? (fun kv => kv.1 == n) = some kv ∧
      kv.2 = none := by
    unfold storedSlot at h
    cases hf : f.properties.find? (fun kv => kv.1 == n) with
    | none => simp [hf] at h
    | some kv => exact ⟨kv, rfl, by simpa [hf] using h⟩
  constructor
  · have hmem := List.mem_of_find?_eq_some hfind
    have hkey := List.find?_some hfind
    unfold hasProperty jsHasOwn
    exact List.any_eq_true.mpr ⟨kv, hmem, hkey⟩
  · unfold getProperty jsIndex
    simp [hfind, hslot]

/-- C10 witness at `undefSlotFeature` and key `"a"`. -/
theorem hasProperty_getProperty_undef_mismatch_witness :
    hasProperty undefSlotFeature "a" = true ∧
    getProperty undefSlotFeature "a" =
      Except.error ("Property " ++ "a" ++ " not found.") :=
  hasProperty_getProperty_undef_mismatch undefSlotFeature "a" rfl

/-- C1: `delFeature` scans the collection in order; when the features
split as `l₁ ++ g :: l₂` with `g` the first feature whose id equals the
argument's id, it removes exactly `g` and returns `true`; when no
feature's id matches, it returns `false` with the collection unchanged. -/
theorem delFeature_spec (c : FeatureCollection) (f : Feature) :
    (∀ l₁ g l₂, c.features = l₁ ++ g :: l₂ → g.id = f.id →
        (∀ h ∈ l₁, h.id ≠ f.id) →
        delFeature c f = (true, { features := l₁ ++ l₂ })) ∧
    ((∀ g ∈ c.features, g.id ≠ f.id) → delFeature c f = (false, c)) := by
  constructor
  · intro l₁ g l₂ hsplit hg hl₁
    unfold delFeature
    rw [hsplit, delFeatureScan_first f.id l₁ g l₂ hg hl₁]
  · intro hnone
    unfold delFeature
    rw [(delFeatureScan_eq_none f.id c.features).mpr hnone]

/-- Witness for C1: deleting by a feature that shares `featB`'s id
removes exactly `featB`; deleting an id that is absent reports `false`
and leaves the collection as it was. -/
theorem delFeature_spec_witness :
    delFeature { features := [featA, featB, featC] } featB' =
      (true, { features := [featA, featC] }) ∧
    delFeature { features := [featA] } featC = (false, { features := [featA] }) :=
  ⟨(delFeature_spec { features := [featA, featB, featC] } featB').1
      [featA] featB [featC] rfl (by decide) (by decide),
   (delFeature_spec { features := [featA] } featC).2 (by decide)⟩

/-- C9: when the argument feature carries no id, `delFeature` removes the
first id-less feature of the collection — whatever its geometry and
properties — and returns `true`, because `undefined === undefined`. -/
theorem delFeature_undefined_id (c : FeatureCollection) (f : Feature)
    (l₁ : List Feature) (g : Feature) (l₂ : List Feature)
    (hsplit : c.features = l₁ ++ g :: l₂) (hf : f.id = none) (hg : g.id = none)
    (hl₁ : ∀ h ∈ l₁, h.id ≠ none) :
    delFeature c f = (true, { features := l₁ ++ l₂ }) := by
  unfold delFeature
  rw [hsplit, hf, delFeatureScan_first none l₁ g l₂ hg hl₁]

/-- Witness for C9: the id-less point `noIdPoint` deletes the id-less
line `noIdLine`, a structurally unrelated feature. -/
theorem delFeature_undefined_id_witness :
    delFeature { features := [featA, noIdLine, noIdPoint] } noIdPoint =
      (true, { features := [featA, noIdPoint] }) :=
  delFeature_undefined_id { features := [featA, noIdLine, noIdPoint] } noIdPoint
    [featA] noIdLine [noIdPoint] rfl rfl rfl (by decide)

/-- C3: `getPolygonsWithHoles` returns, in collection order, exactly the
features whose geometry is a polygon with more than one ring; a polygon
whose ring count is exactly 1 is never returned. -/
theorem getPolygonsWithHoles_spec (c : FeatureCollection) :
    List.Sublist (getPolygonsWithHoles c) c.features ∧
    (∀ f ∈ getPolygonsWithHoles c,
      ∃ rings, f.geometry = Geometry.polygon rings ∧ 1 < rings.length) ∧
    (∀ f ∈ c.features, ∀ rings, f.geometry = Geometry.polygon rings →
      1 < rings.length → f ∈ getPolygonsWithHoles c) ∧
    (∀ f rings, f.geometry = Geometry.polygon rings → rings.length = 1 →
      f ∉ getPolygonsWithHoles c) := by
  refine ⟨List.filter_sublist _, ?_, ?_, ?_⟩
  · intro f hf
    have hp := (List.mem_filter.mp hf).2
    cases hg : f.geometry <;> simp [polygonRingTest, hg] at hp
    exact ⟨_, rfl, hp⟩
  · intro f hf rings hg hlen
    exact List.mem_filter.mpr ⟨hf, by simp [polygonRingTest, hg, hlen]⟩
  · intro f rings hg hlen hmem
    have hp := (List.mem_filter.mp hmem).2
    simp [polygonRingTest, hg, hlen] at hp

/-- Witness for C3 on `polyColl`: the two-ring polygon is returned, the
one-ring polygon is not. -/
theorem getPolygonsWithHoles_spec_witness :
    polyHole ∈ getPolygonsWithHoles polyColl ∧
    polyNoHole ∉ getPolygonsWithHoles polyColl :=
  ⟨(getPolygonsWithHoles_spec polyColl).2.2.1 polyHole (by decide)
      [[[0, 0], [4, 0], [4, 4], [0, 0]], [[1, 1], [2, 1], [2, 2], [1, 1]]] rfl
      (by decide),
   (getPolygonsWithHoles_spec polyColl).2.2.2 polyNoHole
      [[[0, 0], [4, 0], [4, 4], [0, 0]]] rfl rfl⟩

/-- C4: a feature of the collection whose geometry tag is one of the six
recognized kinds is returned by exactly one of the six plain
classifiers. -/
theorem classifier_partition (c : FeatureCollection) (f : Feature)
    (hf : f ∈ c.features)
    (_hrec : f.geometry.typeTag ∈ ["Point", "MultiPoint", "LineString",
      "MultiLineString", "Polygon", "MultiPolygon"]) :
    List.countP (fun r => decide (f ∈ r))
      [getPoints c, getMultiPoints c, getLinestrings c,
       getMultiLineStrings c, getPolygons c, getMultiPolygons c] = 1 := by
  cases hg : f.geometry <;>
    simp [List.countP_cons, List.countP_nil, getPoints, getMultiPoints, getLinestrings,
      getMultiLineStrings, getPolygons, getMultiPolygons, List.mem_filter, hf,
      Geometry.typeTag, hg]

/-- Witness for C4: the point `featA` of `mixColl` is returned by exactly
one of the six classifiers. -/
theorem classifier_partition_witness :
    List.countP (fun r => decide (featA ∈ r))
      [getPoints mixColl, getMultiPoints mixColl, getLinestrings mixColl,
       getMultiLineStrings mixColl, getPolygons mixColl, getMultiPolygons mixColl] = 1 :=
  classifier_partition mixColl featA (by decide) (by decide)

/-- A key is among `Object.keys` exactly when it is an own property. -/
lemma mem_jsKeys_iff_jsHasOwn (props : Props) (k : String) :
    k ∈ jsKeys props ↔ jsHasOwn props k = true := by
  simp only [jsKeys, jsHasOwn, List.mem_map, List.any_eq_true, beq_iff_eq]

/-- Appending a fresh entry affects `typeOf` only for its own key, and
only when the key was not yet recorded. -/
lemma typeOf_append_single (acc : List (String × String)) (key t k : String) :
    typeOf (acc ++ [(key, t)]) k =
      match typeOf acc k with
      | some t' => some t'
      | none => if k = key then some t else none := by
  unfold typeOf
  rw [List.find?_append]
  cases hf : acc.find? (fun e => e.1 == k) with
  | none =>
      by_cases hk : k = key
      · subst hk; simp [List.find?, Option.or]
      · have hkk : ¬key = k := fun e => hk e.symm
        have hb : (key == k) = false := by simp [hkk]
        simp [List.find?, hb, Option.or, hk]
  | some e => simp [Option.or]

/-- `typeOf acc` is populated at any key that `any` finds in `acc`. -/
lemma typeOf_isSome_of_any (acc : List (String × String)) (k : String)
    (h : acc.any (fun e => e.1 == k) = true) : ∃ t, typeOf acc k = some t := by
  have hs : (acc.find? (fun e => e.1 == k)).isSome := by
    rw [List.find?_isSome]
    simpa [List.any_eq_true] using h
  cases hf : acc.find? (fun e => e.1 == k) with
  | none => simp [hf] at hs
  | some e => exact ⟨e.2, by simp [typeOf, hf]⟩

/-- The inner key loop of `getPropertyTypes`: a key already recorded in
the accumulator is untouched; a fresh key gets the classification of the
current feature's slot exactly when it is among the scanned keys. -/
lemma typeOf_addPropTypes (props : Props) (ks : List String)
    (acc : List (String × String)) (k : String) :
    typeOf (addPropTypes props acc ks) k =
      match typeOf acc k with
      | some t => some t
      | none => if k ∈ ks then some (classifySlot (jsIndex props k)) else none := by
  induction ks generalizing acc with
  | nil => cases h : typeOf acc k <;> simp [addPropTypes, h]
  | cons key ks ih =>
      by_cases hacc : acc.any (fun e => e.1 == key) = true
      · rw [addPropTypes, if_pos hacc, ih]
        by_cases hk : k = key
        · subst hk
          obtain ⟨t, ht⟩ := typeOf_isSome_of_any acc k hacc
          simp [ht]
        · cases h : typeOf acc k <;> simp [h, List.mem_cons, hk]
      · rw [addPropTypes, if_neg hacc, ih,
          typeOf_append_single acc key (classifySlot (jsIndex props key)) k]
        by_cases hk : k = key
        · subst hk
          cases h : typeOf acc k with
          | none => simp [h, List.mem_cons]
          | some t => simp [h]
        · cases h : typeOf acc k <;> simp [h, List.mem_cons, hk]

/-- The outer feature loop of `getPropertyTypes`: the recorded type of a
key is what the accumulator already holds, or else the classification of
the first slot the remaining scan sees. -/
lemma typeOf_foldl_addPropTypes (fs : List Feature)
    (acc : List (String × String)) (k : String) :
    typeOf (fs.foldl
        (fun acc feature => addPropTypes feature.properties acc (jsKeys feature.properties))
        acc) k =
      match typeOf acc k with
      | some t => some t
      | none => (firstSeenSlot fs k).map classifySlot := by
  induction fs generalizing acc with
  | nil => cases h : typeOf acc k <;> simp [firstSeenSlot, h]
  | cons f fs ih =>
      rw [List.foldl_cons, ih, typeOf_addPropTypes]
      cases h : typeOf acc k with
      | some t => simp [h]
      | none =>
          by_cases hown : jsHasOwn f.properties k = true
          · simp [h, firstSeenSlot, hown, (mem_jsKeys_iff_jsHasOwn f.properties k).mpr hown]
          · have hown' : jsHasOwn f.properties k = false := Bool.eq_false_iff.mpr hown
            have hmem : k ∉ jsKeys f.properties := by
              simp [mem_jsKeys_iff_jsHasOwn, hown']
            simp [h, firstSeenSlot, hown', hmem]

/-- C6: `getPropertyTypes` records each key occurring in the collection
under the classification of its first-seen slot — `"number"` when JS
`isNaN` rejects it, `"string"` otherwise — and records keys occurring
nowhere not at all; later occurrences never change the entry. -/
theorem getPropertyTypes_spec (c : FeatureCollection) (k : String) :
    typeOf (getPropertyTypes c) k = (firstSeenSlot c.features k).map classifySlot := by
  unfold getPropertyTypes
  rw [typeOf_foldl_addPropTypes]
  simp [typeOf]

/-- A classifier loop never changes the threaded collection state. -/
lemma filterLoopSt_snd (p : Feature → Bool) (l acc : List Feature)
    (st : FeatureCollection) : (filterLoopSt p l acc st).2 = st := by
  induction l generalizing acc with
  | nil => rfl
  | cons f rest ih => rw [filterLoopSt]; exact ih _

/-- A classifier loop computes its filter into the local accumulator. -/
lemma filterLoopSt_fst (p : Feature → Bool) (l acc : List Feature)
    (st : FeatureCollection) : (filterLoopSt p l acc st).1 = acc ++ l.filter p := by
  induction l generalizing acc with
  | nil => simp [filterLoopSt]
  | cons f rest ih =>
      rw [filterLoopSt]
      by_cases hp : p f
      · simp [hp, ih, List.filter_cons]
      · have hp' : p f = false := Bool.eq_false_iff.mpr hp
        simp [hp', ih, List.filter_cons]

/-- The `getPropertyTypes` loop never changes the threaded collection
state. -/
lemma propTypesLoopSt_snd (l : List Feature) (acc : List (String × String))
    (st : FeatureCollection) : (propTypesLoopSt l acc st).2 = st := by
  induction l generalizing acc with
  | nil => rfl
  | cons f rest ih => rw [propTypesLoopSt]; exact ih _

/-- The `getPropertyTypes` loop computes the fold into the local
accumulator. -/
lemma propTypesLoopSt_fst (l : List Feature) (acc : List (String × String))
    (st : FeatureCollection) :
    (propTypesLoopSt l acc st).1 =
      l.foldl (fun acc feature =>
        addPropTypes feature.properties acc (jsKeys feature.properties)) acc := by
  induction l generalizing acc with
  | nil => rfl
  | cons f rest ih => rw [propTypesLoopSt]; exact ih _

/-- C8: each classifier, run with the collection state threaded through
its loop, computes its usual result while returning the collection
exactly as it was — same feature sequence, same order, every feature's
geometry and properties untouched. -/
theorem classifiers_frame (c : FeatureCollection) :
    getPointsSt c = (getPoints c, c) ∧
    getMultiPointsSt c = (getMultiPoints c, c) ∧
    getLinestringsSt c = (getLinestrings c, c) ∧
    getMultiLineStringsSt c = (getMultiLineStrings c, c) ∧
    getPolygonsSt c = (getPolygons c, c) ∧
    getMultiPolygonsSt c = (getMultiPolygons c, c) ∧
    getPolygonsWithHolesSt c = (getPolygonsWithHoles c, c) ∧
    getMultiPolygonsWithHolesSt c = (getMultiPolygonsWithHoles c, c) ∧
    getPropertyTypesSt c = (getPropertyTypes c, c) := by
  refine ⟨?_, ?_, ?_, ?_, ?_, ?_, ?_, ?_, ?_⟩ <;>
    refine Prod.ext ?_ ?_ <;>
      simp [getPointsSt, getMultiPointsSt, getLinestringsSt, getMultiLineStringsSt,
        getPolygonsSt, getMultiPolygonsSt, getPolygonsWithHolesSt,
        getMultiPolygonsWithHolesSt, getPropertyTypesSt, filterLoopSt_fst,
        filterLoopSt_snd, propTypesLoopSt_fst, propTypesLoopSt_snd,
        getPoints, getMultiPoints, getLinestrings, getMultiLineStrings,
        getPolygons, getMultiPolygons, getPolygonsWithHoles,
        getMultiPolygonsWithHoles, getPropertyTypes]

end MobiusTurf
